import Mathlib

/-!
Shallow embedding of the 90-day-challenge backend (`backend/server.py`).

Timestamps are modelled as integers (seconds since an arbitrary epoch);
the Python `datetime` values are totally ordered and only ever compared,
subtracted, and shifted by a constant number of days, all of which the
integer model supports.  The Mongo collections `users` and `projects`
are modelled as lists in insertion order; `find_one` is the first match,
`delete_one`/`update_one` act on the first match, matching Mongo's
natural-order semantics on a single unindexed collection.
-/

namespace NinetyDay

/-- One record of the `users` collection (pydantic model `User`). -/
structure User where
  id : String
  email : String
  name : String
  picture : String
  session_token : String
  expires_at : Int
  created_at : Int
  challenge_start_date : Option Int
deriving DecidableEq, Repr

/-- One record of the `projects` collection (pydantic model `Project`). -/
structure Project where
  id : String
  user_id : String
  title : String
  description : String
  tech_stack : List String
  deployed_link : Option String
  github_link : Option String
  status : String
  month : Int
  created_at : Int
  updated_at : Int
deriving DecidableEq, Repr

/-- The database state: the two Mongo collections. -/
structure DB where
  users : List User
  projects : List Project
deriving DecidableEq, Repr

/-- The parts of an HTTP request the backend reads.  A header or cookie is
`none` when absent from the request; `some ""` is a present-but-empty value
(Starlette returns `""` for those, which is distinct from a missing one). -/
structure Request where
  cookie_session_token : Option String
  authorization : Option String
  x_session_id : Option String
deriving DecidableEq, Repr

/-- The error taxonomy of the API (`HTTPException` status codes). -/
inductive ApiError where
  | badRequest        -- 400
  | unauthenticated   -- 401
  | notFound          -- 404
deriving DecidableEq, Repr

/-! ### Session resolution (`get_current_user`, server.py lines 73-97) -/

/-- Python `str.split(" ")` on the character list: split at every single
space, keeping empty segments (`"a  b" ↦ ["a", "", "b"]`, `"" ↦ [""]`). -/
def splitOnSpace : List Char → List (List Char)
  | [] => [[]]
  | c :: rest =>
    if c = ' ' then [] :: splitOnSpace rest
    else
      match splitOnSpace rest with
      | seg :: segs => (c :: seg) :: segs
      | [] => [[c]]

/-- Python `str.split(" ")` as a list of strings. -/
def pySplitSpace (s : String) : List String :=
  (splitOnSpace s.data).map String.mk

/-- Python `a.startswith(b)` on character lists. -/
def listStartsWith : List Char → List Char → Bool
  | [], _ => true
  | _ :: _, [] => false
  | a :: as, b :: bs => a == b && listStartsWith as bs

/-- Python `h.startswith("Bearer ")`. -/
def startsWithBearer (h : String) : Bool :=
  listStartsWith "Bearer ".data h.data

/-- Token extraction of `get_current_user`: the cookie `session_token` is
used when truthy; otherwise the `Authorization` header is consulted when
truthy and starting with `"Bearer "`, taking `split(" ")[1]`.  A final
falsy (empty) token means no token. -/
def extractToken (req : Request) : Option String :=
  let viaHeader : Option String :=
    match req.authorization with
    | some h => if (h != "") && startsWithBearer h then (pySplitSpace h).get? 1
                else req.cookie_session_token
    | none => req.cookie_session_token
  let tok : Option String :=
    match req.cookie_session_token with
    | some s => if s = "" then viaHeader else some s
    | none => viaHeader
  match tok with
  | some s => if s = "" then none else some s
  | none => none

/-- Mongo `db.users.find_one({"session_token": token})`: first user whose stored
token equals the request token exactly. -/
def findUserByToken (users : List User) (tok : String) : Option User :=
  users.find? (fun u => u.session_token == tok)

/-- Mongo `db.users.delete_one({"id": uid})`: remove the first user with that id. -/
def deleteOneUser (users : List User) (uid : String) : List User :=
  match users with
  | [] => []
  | u :: rest => if u.id == uid then rest else u :: deleteOneUser rest uid

/-- Route helper `get_current_user`: resolve the request to a user, deleting the user
record when its session is expired.  Returns the resolved user (or `none`)
together with the possibly updated database. -/
def get_current_user (req : Request) (now : Int) (db : DB) : Option User × DB :=
  match extractToken req with
  | none => (none, db)
  | some tok =>
    match findUserByToken db.users tok with
    | none => (none, db)
    | some u =>
      if u.expires_at < now then
        (none, { db with users := deleteOneUser db.users u.id })
      else
        (some u, db)

/-! ### Session creation (`create_session`, server.py lines 127-198) -/

/-- The payload the external identity exchange yields on success
(`auth_response.json()` with the keys the route reads). -/
structure AuthData where
  email : String
  name : String
  picture : String
  session_token : String
deriving DecidableEq, Repr

/-- Outcome of the HTTP call to the external identity exchange:
either the transport raised, or a response arrived with a status code and
a body that may (`some`) or may not (`none` — `.json()` raises) parse. -/
inductive ExchangeResult where
  | transportError
  | response (status : Nat) (payload : Option AuthData)
deriving DecidableEq, Repr

/-- The JSON body `POST /auth/session` returns, plus the cookie it sets. -/
structure SessionResponse where
  id : String
  email : String
  name : String
  picture : String
  challenge_start_date : Option Int
  cookie_token : String
deriving DecidableEq, Repr

/-- Mongo `update_one({"email": e}, {"$set": {session_token, expires_at}})`:
patch exactly those two fields on the first user with that email. -/
def updateFirstUserByEmail (users : List User) (email tok : String) (exp : Int) :
    List User :=
  match users with
  | [] => []
  | u :: rest =>
    if u.email == email then
      { u with session_token := tok, expires_at := exp } :: rest
    else
      u :: updateFirstUserByEmail rest email tok exp

/-- Seconds in seven days, the session lifetime (`timedelta(days=7)`). -/
def sevenDays : Int := 7 * 24 * 60 * 60

/-- Route `create_session`: 400 when the `X-Session-ID` header is falsy; any
failure of the external exchange (transport error, non-200 status,
unparseable body) becomes 401; otherwise the user keyed by the exchanged
email is refreshed (token + expiry only) or freshly created with
`challenge_start_date = now`.  `newId` stands for the generated uuid. -/
def create_session (xSessionId : Option String) (exchange : ExchangeResult)
    (newId : String) (now : Int) (db : DB) :
    Except ApiError (SessionResponse × DB) :=
  match xSessionId with
  | none => .error .badRequest
  | some sid =>
    if sid = "" then .error .badRequest
    else
      match exchange with
      | .transportError => .error .unauthenticated
      | .response status payload =>
        if status ≠ 200 then .error .unauthenticated
        else
          match payload with
          | none => .error .unauthenticated
          | some data =>
            match db.users.find? (fun u => u.email == data.email) with
            | some existing =>
              let exp := now + sevenDays
              let users' := updateFirstUserByEmail db.users data.email data.session_token exp
              .ok ({ id := existing.id, email := existing.email,
                     name := existing.name, picture := existing.picture,
                     challenge_start_date := existing.challenge_start_date,
                     cookie_token := data.session_token },
                   { db with users := users' })
            | none =>
              let fresh : User :=
                { id := newId, email := data.email, name := data.name,
                  picture := data.picture, session_token := data.session_token,
                  expires_at := now + sevenDays, created_at := now,
                  challenge_start_date := some now }
              .ok ({ id := fresh.id, email := fresh.email,
                     name := fresh.name, picture := fresh.picture,
                     challenge_start_date := fresh.challenge_start_date,
                     cookie_token := data.session_token },
                   { db with users := db.users ++ [fresh] })

/-! ### Logout (`logout`, server.py lines 210-225) -/

/-- What `POST /auth/logout` sends back: it always clears the cookie and
returns HTTP 200. -/
structure LogoutResponse where
  cookie_cleared : Bool
  status : Nat
deriving DecidableEq, Repr

/-- Route `logout`: tolerant resolve, then delete the resolved user's record;
always clear the cookie and answer 200. -/
def logout (req : Request) (now : Int) (db : DB) : LogoutResponse × DB :=
  let resolved := get_current_user req now db
  let db' :=
    match resolved.1 with
    | some u => { resolved.2 with users := deleteOneUser resolved.2.users u.id }
    | none => resolved.2
  ({ cookie_cleared := true, status := 200 }, db')

/-! ### Project CRUD (server.py lines 228-319) -/

/-- Request body of `POST /projects` (pydantic model `ProjectCreate`). -/
structure ProjectCreate where
  title : String
  description : String
  tech_stack : List String
  deployed_link : Option String
  github_link : Option String
  month : Int
deriving DecidableEq, Repr

/-- Request body of `PUT /projects/{id}` (pydantic model `ProjectUpdate`):
every field optional, `none` meaning "leave unchanged". -/
structure ProjectUpdate where
  title : Option String
  description : Option String
  tech_stack : Option (List String)
  deployed_link : Option String
  github_link : Option String
  status : Option String
deriving DecidableEq, Repr

/-- Route `create_project`: build the `Project` from the input with `user_id` of
the caller, default status `"planning"` and both timestamps `now`, and
insert it.  `newId` stands for the generated uuid. -/
def create_project (user : User) (input : ProjectCreate) (newId : String)
    (now : Int) (db : DB) : Project × DB :=
  let p : Project :=
    { id := newId, user_id := user.id, title := input.title,
      description := input.description, tech_stack := input.tech_stack,
      deployed_link := input.deployed_link, github_link := input.github_link,
      status := "planning", month := input.month,
      created_at := now, updated_at := now }
  (p, { db with projects := db.projects ++ [p] })

/-- Route `GET /projects`: `find({"user_id": user.id}).to_list(1000)` — the
caller's projects in storage order, capped at 1000 documents. -/
def get_user_projects (user : User) (db : DB) : List Project :=
  (db.projects.filter (fun p => p.user_id == user.id)).take 1000

/-- The `$set` document of `update_project`: every non-null patch field
overwrites, plus `updated_at := now`. -/
def applyPatch (p : Project) (upd : ProjectUpdate) (now : Int) : Project :=
  { p with
    title := upd.title.getD p.title,
    description := upd.description.getD p.description,
    tech_stack := upd.tech_stack.getD p.tech_stack,
    deployed_link := match upd.deployed_link with
      | some v => some v
      | none => p.deployed_link,
    github_link := match upd.github_link with
      | some v => some v
      | none => p.github_link,
    status := upd.status.getD p.status,
    updated_at := now }

/-- Mongo `update_one({"id": pid}, {"$set": ...})`: patch the first project with
that id (the ownership filter is NOT part of this write). -/
def updateFirstProjectById (ps : List Project) (pid : String)
    (upd : ProjectUpdate) (now : Int) : List Project :=
  match ps with
  | [] => []
  | p :: rest =>
    if p.id == pid then applyPatch p upd now :: rest
    else p :: updateFirstProjectById rest pid upd now

/-- Route `update_project`: 404 unless a project with this id owned by this user
exists; then apply the patch to the first project with the id and return
the re-fetched record.  The inner `.error .notFound` branch is
unreachable (the re-fetch always finds the project) but mirrors the
partiality of `find_one` faithfully. -/
def update_project (user : User) (pid : String) (upd : ProjectUpdate)
    (now : Int) (db : DB) : Except ApiError (Project × DB) :=
  match db.projects.find? (fun p => p.id == pid && p.user_id == user.id) with
  | none => .error .notFound
  | some _ =>
    let ps' := updateFirstProjectById db.projects pid upd now
    match ps'.find? (fun p => p.id == pid) with
    | some fetched => .ok (fetched, { db with projects := ps' })
    | none => .error .notFound

/-- Mongo `delete_one({"id": pid, "user_id": uid})`: remove the first project
matching both. -/
def deleteOneProjectOwned (ps : List Project) (pid uid : String) : List Project :=
  match ps with
  | [] => []
  | p :: rest =>
    if p.id == pid && p.user_id == uid then rest
    else p :: deleteOneProjectOwned rest pid uid

/-- Route `delete_project`: delete where id and owner match; 404 when the
deleted count is zero. -/
def delete_project (user : User) (pid : String) (db : DB) :
    Except ApiError DB :=
  if db.projects.any (fun p => p.id == pid && p.user_id == user.id) then
    .ok { db with projects := deleteOneProjectOwned db.projects pid user.id }
  else
    .error .notFound

/-! ### Explore feed (`get_all_projects`, server.py lines 249-288) -/

/-- One row of the explore aggregation after `$project`. -/
structure ExploreEntry where
  id : String
  title : String
  description : String
  tech_stack : List String
  deployed_link : Option String
  github_link : Option String
  status : String
  month : Int
  created_at : Int
  creator_name : String
  creator_picture : String
deriving DecidableEq, Repr

/-- The `$project` stage: flatten a project with its unwound user. -/
def flattenEntry (p : Project) (u : User) : ExploreEntry :=
  { id := p.id, title := p.title, description := p.description,
    tech_stack := p.tech_stack, deployed_link := p.deployed_link,
    github_link := p.github_link, status := p.status, month := p.month,
    created_at := p.created_at, creator_name := u.name,
    creator_picture := u.picture }

/-- Stages `$lookup` + `$unwind`: each project paired with every user whose `id`
equals its `user_id`; a project with no such user produces no rows. -/
def exploreJoin (db : DB) : List ExploreEntry :=
  db.projects.flatMap
    (fun p => (db.users.filter (fun u => u.id == p.user_id)).map (flattenEntry p))

/-- The `$sort {created_at: -1}` comparison, as a Bool relation. -/
def newerFirst (a b : ExploreEntry) : Bool := b.created_at ≤ a.created_at

/-- Route `get_all_projects`: join, sort by `created_at` descending, and cap the
cursor at 1000 documents (`to_list(1000)`). -/
def get_all_projects (db : DB) : List ExploreEntry :=
  ((exploreJoin db).mergeSort newerFirst).take 1000

/-! ### Dashboard (`get_dashboard_data`, server.py lines 322-357) -/

/-- One `month_stats` bucket.  `planning` is computed by subtraction in
Python int arithmetic, hence `Int`-valued here. -/
structure MonthStat where
  total : Nat
  completed : Nat
  in_progress : Nat
  planning : Int
deriving DecidableEq, Repr

/-- The per-month stats loop body: filter the month, count the statuses,
and set `planning := total - completed - in_progress`. -/
def monthStat (projects : List Project) (m : Int) : MonthStat :=
  let monthProjects := projects.filter (fun p => p.month == m)
  let completed := (monthProjects.filter (fun p => p.status == "completed")).length
  let inProgress := (monthProjects.filter (fun p => p.status == "in-progress")).length
  let total := monthProjects.length
  { total := total, completed := completed, in_progress := inProgress,
    planning := (total : Int) - (completed : Int) - (inProgress : Int) }

/-- The JSON body of `GET /dashboard`.  `challenge_progress` is a Python
float computed from integer inputs by division and `min`; it is modelled
exactly as a rational. -/
structure DashboardData where
  days_elapsed : Int
  days_remaining : Int
  challenge_progress : ℚ
  projects : List Project
  month_1 : MonthStat
  month_2 : MonthStat
  month_3 : MonthStat
  total_projects : Nat
deriving DecidableEq, Repr

/-- Python `(now - challenge_start_date).days`: Python `timedelta.days` is floor
division of the elapsed seconds by 86400. -/
def daysElapsed (user : User) (now : Int) : Int :=
  match user.challenge_start_date with
  | some start => Int.fdiv (now - start) 86400
  | none => 0

/-- Route `get_dashboard_data`: elapsed/remaining days, clamped progress
percentage, the caller's projects (capped at 1000), and per-month stats. -/
def get_dashboard_data (user : User) (now : Int) (db : DB) : DashboardData :=
  let d := daysElapsed user now
  let projects := get_user_projects user db
  { days_elapsed := d,
    days_remaining := max 0 (90 - d),
    challenge_progress := min 100 ((d : ℚ) / 90 * 100),
    projects := projects,
    month_1 := monthStat projects 1,
    month_2 := monthStat projects 2,
    month_3 := monthStat projects 3,
    total_projects := projects.length }

/-! ### Claim-level definitions for session resolution

`claimC1Token`/`claimC1Resolve` transcribe claim C1 literally: the cookie
is used whenever it is *present* and only an *absent* cookie falls back to
the `Authorization` header.  `claimC1TokenAmended`/`claimC1ResolveAmended`
transcribe the amended claim: a present-but-empty cookie also falls back,
and an empty extracted token counts as no token. -/

/-- Token extraction as claim C1 words it: cookie if present, else the
Bearer header. -/
def claimC1Token (req : Request) : Option String :=
  match req.cookie_session_token with
  | some s => some s
  | none =>
    match req.authorization with
    | some h => if startsWithBearer h then (pySplitSpace h).get? 1 else none
    | none => none

/-- Session resolution as claim C1 words it, with `claimC1Token`. -/
def claimC1Resolve (req : Request) (now : Int) (db : DB) : Option User × DB :=
  match claimC1Token req with
  | none => (none, db)
  | some tok =>
    match findUserByToken db.users tok with
    | none => (none, db)
    | some u =>
      if u.expires_at < now then
        (none, { db with users := deleteOneUser db.users u.id })
      else
        (some u, db)

/-- Token extraction as the amended claim words it: a non-empty cookie
wins; an absent or empty cookie falls back to the Bearer header; an empty
extracted value counts as no token. -/
def claimC1TokenAmended (req : Request) : Option String :=
  let viaCookie : Option String :=
    match req.cookie_session_token with
    | some s => if s = "" then none else some s
    | none => none
  let raw : Option String :=
    match viaCookie with
    | some s => some s
    | none =>
      match req.authorization with
      | some h => if startsWithBearer h then (pySplitSpace h).get? 1 else none
      | none => none
  match raw with
  | some s => if s = "" then none else some s
  | none => none

/-- Session resolution as the amended claim words it. -/
def claimC1ResolveAmended (req : Request) (now : Int) (db : DB) : Option User × DB :=
  match claimC1TokenAmended req with
  | none => (none, db)
  | some tok =>
    match findUserByToken db.users tok with
    | none => (none, db)
    | some u =>
      if u.expires_at < now then
        (none, { db with users := deleteOneUser db.users u.id })
      else
        (some u, db)

/-- The code's token extraction agrees with the amended claim's reading. -/
theorem extractToken_eq_amended (req : Request) :
    extractToken req = claimC1TokenAmended req := by
  obtain ⟨c, a, x⟩ := req
  cases c with
  | none =>
    cases a with
    | none => rfl
    | some h =>
      by_cases hh : h = ""
      · subst hh; rfl
      · cases hb : startsWithBearer h <;>
          simp [extractToken, claimC1TokenAmended, hh, hb]
  | some s =>
    by_cases hs : s = ""
    · subst hs
      cases a with
      | none => rfl
      | some h =>
        by_cases hh : h = ""
        · subst hh; rfl
        · cases hb : startsWithBearer h <;>
            simp [extractToken, claimC1TokenAmended, hh, hb]
    · simp [extractToken, claimC1TokenAmended, hs]

/-- Claim C1 (as frozen): session resolution uses the `Authorization`
header only when the `session_token` cookie is *absent*.  This fails on
the code: a present-but-empty cookie (`session_token=`) also falls back
to the header.  Concretely, with cookie `some ""`, header
`Bearer tok1` and a live user holding token `tok1`, the code resolves
that user while the claim's reading resolves nobody. -/
theorem c1_counterexample :
    get_current_user
        { cookie_session_token := some "", authorization := some "Bearer tok1",
          x_session_id := none }
        50
        { users := [{ id := "u1", email := "a@b", name := "A", picture := "pic",
                      session_token := "tok1", expires_at := 100, created_at := 0,
                      challenge_start_date := some 0 }],
          projects := [] }
      ≠
    claimC1Resolve
        { cookie_session_token := some "", authorization := some "Bearer tok1",
          x_session_id := none }
        50
        { users := [{ id := "u1", email := "a@b", name := "A", picture := "pic",
                      session_token := "tok1", expires_at := 100, created_at := 0,
                      challenge_start_date := some 0 }],
          projects := [] } := by
  decide

/-- Claim C1 (amended): session resolution extracts the token from the
`session_token` cookie when it is present and non-empty; if the cookie is
absent or empty, from an `Authorization: Bearer <token>` header (an empty
extracted value counting as no token); it returns `None` and leaves the
database unchanged when no token is found or no user's `session_token`
matches exactly; if the matched user's `expires_at` is in the past it
deletes that user record and returns `None`; otherwise it returns that
user and the database unchanged. -/
theorem c1_resolve_amended (req : Request) (now : Int) (db : DB) :
    get_current_user req now db = claimC1ResolveAmended req now db := by
  unfold get_current_user claimC1ResolveAmended
  rw [extractToken_eq_amended]

/-- Claim C7 (as frozen): `createSession` answers `BadRequest` iff the
request carries no `X-Session-ID` header.  This fails on the code: a
present-but-empty header value (`X-Session-ID:` with empty value, which
`headers.get` hands to the route as `""`) is also answered with 400,
although the header is present. -/
theorem c7_counterexample :
    create_session (some "")
        (.response 200 (some { email := "a@b", name := "A", picture := "p",
                               session_token := "t" }))
        "uid" 0 { users := [], projects := [] }
      = .error .badRequest
    ∧ (some "" : Option String) ≠ none := by
  exact ⟨rfl, by decide⟩

/-- Claim C7 (amended): `createSession` fails with `BadRequest` (400) iff
the `X-Session-ID` header is absent or empty; with a non-empty header,
every failure of the external identity exchange — a transport error, a
non-200 status, or an unparseable response payload — surfaces as
`Unauthenticated` (401), never as the underlying error. -/
theorem c7_create_session_errors (sid : Option String) (ex : ExchangeResult)
    (nid : String) (now : Int) (db : DB) :
    (create_session sid ex nid now db = .error .badRequest ↔
       (sid = none ∨ sid = some ""))
  ∧ (∀ s, sid = some s → s ≠ "" →
      (ex = .transportError →
         create_session sid ex nid now db = .error .unauthenticated)
    ∧ (∀ st payload, ex = .response st payload → st ≠ 200 →
         create_session sid ex nid now db = .error .unauthenticated)
    ∧ (∀ st, ex = .response st none → st = 200 →
         create_session sid ex nid now db = .error .unauthenticated)) := by
  constructor
  · cases sid with
    | none => simp [create_session]
    | some s =>
      by_cases hs : s = ""
      · subst hs; simp [create_session]
      · simp only [create_session, if_neg hs]
        constructor
        · intro h
          exfalso
          cases ex with
          | transportError => simp at h
          | response st payload =>
            by_cases hst : st = 200
            · subst hst
              cases payload with
              | none => simp at h
              | some data =>
                cases hf : db.users.find? (fun u => u.email == data.email) <;>
                  simp [hf] at h
            · simp [hst] at h
        · rintro (h | h)
          · exact absurd h (Option.some_ne_none s)
          · injection h with h
            exact absurd h hs
  · rintro s rfl hs
    refine ⟨?_, ?_, ?_⟩
    · rintro rfl
      simp [create_session, hs]
    · rintro st payload rfl hst
      simp [create_session, hs, hst]
    · rintro st rfl rfl
      simp [create_session, hs]

/-- Witness for `c7_create_session_errors` at a concrete input: a request
with a non-empty header and a transport failure of the exchange is
answered 401. -/
theorem c7_witness :
    create_session (some "sid1") .transportError "uid" 0
        { users := [], projects := [] }
      = .error .unauthenticated :=
  ((c7_create_session_errors (some "sid1") .transportError "uid" 0
      { users := [], projects := [] }).2 "sid1" rfl (by decide)).1 rfl

/-- Helper `updateFirstUserByEmail` splits the list at the first user with the
matched email and rewrites exactly `session_token` and `expires_at` of
that record, keeping everything else in place. -/
theorem updateFirstUserByEmail_spec (users : List User) (email tok : String)
    (exp : Int) (h : ∃ u ∈ users, u.email = email) :
    ∃ pre u post, users = pre ++ u :: post
      ∧ (∀ v ∈ pre, v.email ≠ email) ∧ u.email = email
      ∧ updateFirstUserByEmail users email tok exp =
          pre ++ { u with session_token := tok, expires_at := exp } :: post := by
  induction users with
  | nil => simp at h
  | cons w rest ih =>
    by_cases hw : w.email = email
    · exact ⟨[], w, rest, by simp, by simp, hw,
        by simp [updateFirstUserByEmail, hw]⟩
    · have h' : ∃ u ∈ rest, u.email = email := by
        obtain ⟨u, hu, he⟩ := h
        rcases List.mem_cons.mp hu with rfl | hmem
        · exact absurd he hw
        · exact ⟨u, hmem, he⟩
      obtain ⟨pre, u, post, h1, h2, h3, h4⟩ := ih h'
      refine ⟨w :: pre, u, post, by simp [h1], ?_, h3,
        by simp [updateFirstUserByEmail, hw, h4]⟩
      intro v hv
      rcases List.mem_cons.mp hv with rfl | hvm
      · exact hw
      · exact h2 v hvm

/-- Claim C4: on re-authentication of an email that already has a user
record, `create_session` overwrites only that record's `session_token`
and `expires_at` (the new expiry being now + 7 days), leaving
`challenge_start_date` and every other stored field unchanged; for a
previously unseen email it appends a new user with
`challenge_start_date = now`.  Projects are untouched either way. -/
theorem c4_create_session_frame (s : String) (hs : s ≠ "") (data : AuthData)
    (nid : String) (now : Int) (db : DB) (resp : SessionResponse) (db' : DB)
    (h : create_session (some s) (.response 200 (some data)) nid now db
           = .ok (resp, db')) :
    db'.projects = db.projects
  ∧ ((∃ u ∈ db.users, u.email = data.email) →
       ∃ pre u post, db.users = pre ++ u :: post
         ∧ (∀ v ∈ pre, v.email ≠ data.email) ∧ u.email = data.email
         ∧ db'.users = pre ++
             { u with session_token := data.session_token,
                      expires_at := now + sevenDays } :: post)
  ∧ ((∀ u ∈ db.users, u.email ≠ data.email) →
       db'.users = db.users ++
         [{ id := nid, email := data.email, name := data.name,
            picture := data.picture, session_token := data.session_token,
            expires_at := now + sevenDays, created_at := now,
            challenge_start_date := some now }]) := by
  simp only [create_session, if_neg hs] at h
  cases hf : db.users.find? (fun u => u.email == data.email) with
  | some existing =>
    rw [hf] at h
    simp only [if_neg (by simp : ¬((200:Nat) ≠ 200)), Except.ok.injEq,
      Prod.mk.injEq] at h
    obtain ⟨-, rfl⟩ := h
    refine ⟨rfl, ?_, ?_⟩
    · intro hex
      obtain ⟨pre, u, post, h1, h2, h3, h4⟩ :=
        updateFirstUserByEmail_spec db.users data.email data.session_token
          (now + sevenDays) hex
      exact ⟨pre, u, post, h1, h2, h3, h4⟩
    · intro hnone
      exfalso
      have hmem := List.mem_of_find?_eq_some hf
      have hpred := List.find?_some hf
      rw [beq_iff_eq] at hpred
      exact hnone existing hmem hpred
  | none =>
    rw [hf] at h
    simp only [if_neg (by simp : ¬((200:Nat) ≠ 200)), Except.ok.injEq,
      Prod.mk.injEq] at h
    obtain ⟨-, rfl⟩ := h
    refine ⟨rfl, ?_, fun _ => rfl⟩
    intro hex
    exfalso
    obtain ⟨u, hu, he⟩ := hex
    have := List.find?_eq_none.mp hf u hu
    rw [beq_iff_eq] at this
    exact this he

/-- Witness for `c4_create_session_frame`: a concrete re-authentication
of an existing user rewrites exactly the token and expiry. -/
theorem c4_witness :
    ({ users := [{ id := "u1", email := "a@b", name := "A", picture := "p",
                   session_token := "new", expires_at := 3 + sevenDays,
                   created_at := 0, challenge_start_date := some 0 }],
       projects := [] } : DB).projects = ([] : List Project)
    ∧ True := by
  have h := c4_create_session_frame "sid" (by decide)
      { email := "a@b", name := "A", picture := "p", session_token := "new" }
      "nid" 3
      { users := [{ id := "u1", email := "a@b", name := "A", picture := "p",
                    session_token := "old", expires_at := 10, created_at := 0,
                    challenge_start_date := some 0 }],
        projects := [] }
      { id := "u1", email := "a@b", name := "A", picture := "p",
        challenge_start_date := some 0, cookie_token := "new" }
      { users := [{ id := "u1", email := "a@b", name := "A", picture := "p",
                    session_token := "new", expires_at := 3 + sevenDays,
                    created_at := 0, challenge_start_date := some 0 }],
        projects := [] }
      rfl
  exact ⟨h.1, trivial⟩

/-- A successful resolution leaves the database untouched and returns a
stored, unexpired user. -/
theorem get_current_user_some (req : Request) (now : Int) (db : DB) (u : User)
    (h : (get_current_user req now db).1 = some u) :
    get_current_user req now db = (some u, db) ∧ u ∈ db.users
      ∧ ¬ u.expires_at < now := by
  unfold get_current_user at h ⊢
  cases he : extractToken req with
  | none => rw [he] at h; simp at h
  | some tok =>
    rw [he] at h
    cases hf : findUserByToken db.users tok with
    | none => simp [hf] at h
    | some w =>
      by_cases hex : w.expires_at < now
      · simp [hf, hex] at h
      · simp [hf, hex] at h
        subst h
        refine ⟨?_, List.mem_of_find?_eq_some hf, hex⟩
        simp [hf, hex]

/-- Helper `deleteOneUser` removes exactly the first record carrying the id. -/
theorem deleteOneUser_spec (users : List User) (uid : String)
    (h : ∃ w ∈ users, w.id = uid) :
    ∃ pre w post, users = pre ++ w :: post ∧ w.id = uid
      ∧ (∀ v ∈ pre, v.id ≠ uid) ∧ deleteOneUser users uid = pre ++ post := by
  induction users with
  | nil => simp at h
  | cons w rest ih =>
    by_cases hw : w.id = uid
    · exact ⟨[], w, rest, by simp, hw, by simp, by simp [deleteOneUser, hw]⟩
    · have h' : ∃ v ∈ rest, v.id = uid := by
        obtain ⟨v, hv, he⟩ := h
        rcases List.mem_cons.mp hv with rfl | hmem
        · exact absurd he hw
        · exact ⟨v, hmem, he⟩
      obtain ⟨pre, v, post, h1, h2, h3, h4⟩ := ih h'
      refine ⟨w :: pre, v, post, by simp [h1], h2, ?_,
        by simp [deleteOneUser, hw, h4]⟩
      intro x hx
      rcases List.mem_cons.mp hx with rfl | hxm
      · exact hw
      · exact h3 x hxm

/-- Claim C8: `logout` resolves the current user tolerantly; when a user
is resolved it deletes that user's entire record from the users
collection — the first record carrying the resolved user's id disappears
wholesale, the projects collection untouched — and in every case,
authenticated or not, it clears the `session_token` cookie and returns a
success (200) response. -/
theorem c8_logout (req : Request) (now : Int) (db : DB) :
    (logout req now db).1.cookie_cleared = true
  ∧ (logout req now db).1.status = 200
  ∧ ∀ u, (get_current_user req now db).1 = some u →
      (logout req now db).2.projects = db.projects
    ∧ ∃ pre w post, db.users = pre ++ w :: post ∧ w.id = u.id
        ∧ (∀ v ∈ pre, v.id ≠ u.id)
        ∧ (logout req now db).2.users = pre ++ post := by
  refine ⟨rfl, rfl, ?_⟩
  intro u hu
  obtain ⟨heq, hmem, -⟩ := get_current_user_some req now db u hu
  obtain ⟨pre, w, post, h1, h2, h3, h4⟩ :=
    deleteOneUser_spec db.users u.id ⟨u, hmem, rfl⟩
  unfold logout
  rw [heq]
  exact ⟨rfl, pre, w, post, h1, h2, h3, h4⟩

/-- Witness for `c8_logout`: a concrete authenticated logout removes the
user record and clears the cookie with a 200. -/
theorem c8_witness :
    (logout { cookie_session_token := some "tok", authorization := none,
              x_session_id := none } 5
        { users := [{ id := "u1", email := "a@b", name := "A", picture := "p",
                      session_token := "tok", expires_at := 10, created_at := 0,
                      challenge_start_date := some 0 }],
          projects := [] }).1.status = 200 := by
  exact (c8_logout { cookie_session_token := some "tok",
                     authorization := none, x_session_id := none } 5
      { users := [{ id := "u1", email := "a@b", name := "A", picture := "p",
                    session_token := "tok", expires_at := 10, created_at := 0,
                    challenge_start_date := some 0 }],
        projects := [] }).2.1

/-- The `$set` write of `update_project` relates the old and new project
lists pointwise: every record is either untouched or patched in place,
and a patch never moves `month`, `user_id`, `id`, or `created_at`. -/
theorem forall₂_updateFirstProjectById (ps : List Project) (pid : String)
    (upd : ProjectUpdate) (now : Int) :
    List.Forall₂
      (fun old new => (new = old ∨ new = applyPatch old upd now)
        ∧ new.month = old.month ∧ new.user_id = old.user_id
        ∧ new.id = old.id ∧ new.created_at = old.created_at)
      ps (updateFirstProjectById ps pid upd now) := by
  induction ps with
  | nil => exact List.Forall₂.nil
  | cons p rest ih =>
    by_cases hp : p.id = pid
    · simp only [updateFirstProjectById, hp, beq_self_eq_true, if_true]
      exact List.Forall₂.cons ⟨Or.inr rfl, rfl, rfl, rfl, rfl⟩
        (List.forall₂_same.mpr
          (fun x _ => ⟨Or.inl rfl, rfl, rfl, rfl, rfl⟩))
    · simp only [updateFirstProjectById, beq_iff_eq, hp, if_false]
      exact List.Forall₂.cons ⟨Or.inl rfl, rfl, rfl, rfl, rfl⟩ ih

/-- Helper `updateFirstProjectById` keeps an element with the patched id around. -/
theorem exists_id_updateFirstProjectById (ps : List Project) (pid : String)
    (upd : ProjectUpdate) (now : Int) (h : ∃ p ∈ ps, p.id = pid) :
    ∃ r ∈ updateFirstProjectById ps pid upd now, r.id = pid := by
  induction ps with
  | nil => simp at h
  | cons p rest ih =>
    by_cases hp : p.id = pid
    · exact ⟨applyPatch p upd now,
        by simp [updateFirstProjectById, hp], hp⟩
    · have h' : ∃ q ∈ rest, q.id = pid := by
        obtain ⟨q, hq, he⟩ := h
        rcases List.mem_cons.mp hq with rfl | hmem
        · exact absurd he hp
        · exact ⟨q, hmem, he⟩
      obtain ⟨r, hr, hre⟩ := ih h'
      exact ⟨r, by simp [updateFirstProjectById, hp, hr], hre⟩

/-- Claim C2: for every authenticated user and project id, `update` and
`delete` answer `NotFound` (404) exactly when no project with that id
owned by that user exists — a project owned by a different user is
indistinguishable from a nonexistent one, and ownership never yields a
distinct forbidden status or success. -/
theorem c2_notFound_iff (user : User) (pid : String) (upd : ProjectUpdate)
    (now : Int) (db : DB) :
    (update_project user pid upd now db = .error .notFound ↔
       ∀ p ∈ db.projects, ¬(p.id = pid ∧ p.user_id = user.id))
  ∧ (delete_project user pid db = .error .notFound ↔
       ∀ p ∈ db.projects, ¬(p.id = pid ∧ p.user_id = user.id)) := by
  constructor
  · unfold update_project
    cases hf : db.projects.find? (fun p => p.id == pid && p.user_id == user.id) with
    | none =>
      simp only [iff_true_intro rfl, true_iff]
      intro p hp ⟨h1, h2⟩
      have := List.find?_eq_none.mp hf p hp
      simp [h1, h2] at this
    | some q =>
      have hq1 := List.find?_some hf
      have hq2 := List.mem_of_find?_eq_some hf
      simp only [Bool.and_eq_true, beq_iff_eq] at hq1
      cases hfetch : (updateFirstProjectById db.projects pid upd now).find?
          (fun p => p.id == pid) with
      | none =>
        exfalso
        obtain ⟨r, hr, hre⟩ := exists_id_updateFirstProjectById db.projects pid
          upd now ⟨q, hq2, hq1.1⟩
        have := List.find?_eq_none.mp hfetch r hr
        simp [hre] at this
      | some fetched =>
        constructor
        · intro h; exact absurd h (by simp [hfetch])
        · intro hall
          exact absurd ⟨hq1.1, hq1.2⟩ (hall q hq2)
  · unfold delete_project
    by_cases ha : db.projects.any (fun p => p.id == pid && p.user_id == user.id)
    · simp only [ha, if_true]
      constructor
      · intro h; exact absurd h (by simp)
      · intro hall
        obtain ⟨p, hp, hpred⟩ := List.any_eq_true.mp ha
        simp only [Bool.and_eq_true, beq_iff_eq] at hpred
        exact absurd hpred (hall p hp)
    · simp only [Bool.not_eq_true] at ha
      simp only [ha, Bool.false_eq_true, if_false, iff_true_intro rfl, true_iff]
      intro p hp ⟨h1, h2⟩
      have := List.any_eq_false.mp ha p hp
      simp [h1, h2] at this

/-- Witness for `c2_notFound_iff`: deleting a project owned by a
different user answers `NotFound`. -/
theorem c2_witness :
    delete_project
        { id := "alice", email := "a@b", name := "A", picture := "p",
          session_token := "t", expires_at := 10, created_at := 0,
          challenge_start_date := none }
        "p1"
        { users := [],
          projects := [{ id := "p1", user_id := "bob", title := "T",
                         description := "D", tech_stack := [],
                         deployed_link := none, github_link := none,
                         status := "planning", month := 1, created_at := 0,
                         updated_at := 0 }] }
      = .error .notFound := by
  refine (c2_notFound_iff
      { id := "alice", email := "a@b", name := "A", picture := "p",
        session_token := "t", expires_at := 10, created_at := 0,
        challenge_start_date := none }
      "p1"
      { title := none, description := none, tech_stack := none,
        deployed_link := none, github_link := none, status := none }
      0
      { users := [],
        projects := [{ id := "p1", user_id := "bob", title := "T",
                       description := "D", tech_stack := [],
                       deployed_link := none, github_link := none,
                       status := "planning", month := 1, created_at := 0,
                       updated_at := 0 }] }).2.mpr ?_
  intro p hp
  simp only [List.mem_singleton] at hp
  subst hp
  rintro ⟨-, h⟩
  exact absurd h (by decide)

/-- Claim C10: every successful project update leaves `month`, `user_id`,
`id`, and `created_at` of every stored project unchanged — the patch type
carries only title, description, tech_stack, deployed_link, github_link
and status, and the write applies only the non-null patch fields plus
`updated_at`, so no patch can move a project to another month or another
owner. -/
theorem c10_update_frame (user : User) (pid : String) (upd : ProjectUpdate)
    (now : Int) (db : DB) (ret : Project) (db' : DB)
    (h : update_project user pid upd now db = .ok (ret, db')) :
    List.Forall₂
      (fun old new => (new = old ∨ new = applyPatch old upd now)
        ∧ new.month = old.month ∧ new.user_id = old.user_id
        ∧ new.id = old.id ∧ new.created_at = old.created_at)
      db.projects db'.projects := by
  unfold update_project at h
  cases hf : db.projects.find? (fun p => p.id == pid && p.user_id == user.id) with
  | none => rw [hf] at h; simp at h
  | some q =>
    rw [hf] at h
    cases hfetch : (updateFirstProjectById db.projects pid upd now).find?
        (fun p => p.id == pid) with
    | none => simp [hfetch] at h
    | some fetched =>
      simp only [hfetch, Except.ok.injEq, Prod.mk.injEq] at h
      obtain ⟨-, rfl⟩ := h
      exact forall₂_updateFirstProjectById db.projects pid upd now

/-- Witness for `c10_update_frame`: a concrete successful status update
keeps month, owner, id and creation time of the stored project. -/
theorem c10_witness :
    List.Forall₂
      (fun old new =>
        (new = old ∨ new = applyPatch old
            { title := none, description := none, tech_stack := none,
              deployed_link := none, github_link := none,
              status := some "completed" } 9)
        ∧ new.month = old.month ∧ new.user_id = old.user_id
        ∧ new.id = old.id ∧ new.created_at = old.created_at)
      [{ id := "p1", user_id := "u1", title := "T", description := "D",
         tech_stack := ["lean"], deployed_link := none, github_link := none,
         status := "planning", month := 1, created_at := 0, updated_at := 0 }]
      [{ id := "p1", user_id := "u1", title := "T", description := "D",
         tech_stack := ["lean"], deployed_link := none, github_link := none,
         status := "completed", month := 1, created_at := 0, updated_at := 9 }] := by
  exact c10_update_frame
    { id := "u1", email := "a@b", name := "A", picture := "p",
      session_token := "t", expires_at := 10, created_at := 0,
      challenge_start_date := none }
    "p1"
    { title := none, description := none, tech_stack := none,
      deployed_link := none, github_link := none, status := some "completed" }
    9
    { users := [],
      projects := [{ id := "p1", user_id := "u1", title := "T",
                     description := "D", tech_stack := ["lean"],
                     deployed_link := none, github_link := none,
                     status := "planning", month := 1, created_at := 0,
                     updated_at := 0 }] }
    { id := "p1", user_id := "u1", title := "T", description := "D",
      tech_stack := ["lean"], deployed_link := none, github_link := none,
      status := "completed", month := 1, created_at := 0, updated_at := 9 }
    { users := [],
      projects := [{ id := "p1", user_id := "u1", title := "T",
                     description := "D", tech_stack := ["lean"],
                     deployed_link := none, github_link := none,
                     status := "completed", month := 1, created_at := 0,
                     updated_at := 9 }] }
    rfl

/-- With a start date no later than now, the elapsed day count is
nonnegative. -/
theorem daysElapsed_nonneg (user : User) (now : Int)
    (h : ∀ s ∈ user.challenge_start_date, s ≤ now) :
    0 ≤ daysElapsed user now := by
  unfold daysElapsed
  cases hs : user.challenge_start_date with
  | none => exact le_refl 0
  | some s =>
    have hle : s ≤ now := h s (hs ▸ Option.mem_def.mpr rfl)
    show 0 ≤ Int.fdiv (now - s) 86400
    rw [Int.fdiv_eq_ediv _ (by norm_num)]
    exact Int.ediv_nonneg (by omega) (by norm_num)

/-- The elapsed day count is monotone in the clock. -/
theorem daysElapsed_mono (user : User) {n₁ n₂ : Int} (h : n₁ ≤ n₂) :
    daysElapsed user n₁ ≤ daysElapsed user n₂ := by
  unfold daysElapsed
  cases user.challenge_start_date with
  | none => exact le_refl 0
  | some s =>
    show Int.fdiv (n₁ - s) 86400 ≤ Int.fdiv (n₂ - s) 86400
    rw [Int.fdiv_eq_ediv _ (by norm_num), Int.fdiv_eq_ediv _ (by norm_num)]
    exact Int.ediv_le_ediv (by norm_num) (by omega)

/-- The clamped progress percentage, as a function of the day count. -/
theorem progress_formula_mono {d₁ d₂ : Int} (h : d₁ ≤ d₂) :
    min 100 ((d₁ : ℚ) / 90 * 100) ≤ min 100 ((d₂ : ℚ) / 90 * 100) := by
  refine min_le_min le_rfl ?_
  have hc : (d₁ : ℚ) ≤ (d₂ : ℚ) := Int.cast_le.mpr h
  have h90 : (0:ℚ) < 90 := by norm_num
  exact mul_le_mul_of_nonneg_right ((div_le_div_iff_of_pos_right h90).mpr hc)
    (by norm_num)

/-- Claim C3: the dashboard computes `days_elapsed` as the floor of the
elapsed days since `challenge_start_date` (0 when unset),
`days_remaining = max 0 (90 - days_elapsed)`, and
`challenge_progress = min 100 (days_elapsed / 90 * 100)`; whenever the
start date is no later than now, the progress lies in [0, 100], and it is
monotonically non-decreasing as the clock advances. -/
theorem c3_dashboard (user : User) (now : Int) (db : DB) :
    (user.challenge_start_date = none →
       (get_dashboard_data user now db).days_elapsed = 0)
  ∧ (∀ start, user.challenge_start_date = some start →
       (get_dashboard_data user now db).days_elapsed =
         Int.fdiv (now - start) 86400)
  ∧ (get_dashboard_data user now db).days_remaining =
      max 0 (90 - (get_dashboard_data user now db).days_elapsed)
  ∧ (get_dashboard_data user now db).challenge_progress =
      min 100 (((get_dashboard_data user now db).days_elapsed : ℚ) / 90 * 100)
  ∧ ((∀ s ∈ user.challenge_start_date, s ≤ now) →
       0 ≤ (get_dashboard_data user now db).challenge_progress
     ∧ (get_dashboard_data user now db).challenge_progress ≤ 100)
  ∧ (∀ now', now ≤ now' →
       (get_dashboard_data user now db).challenge_progress ≤
         (get_dashboard_data user now' db).challenge_progress) := by
  refine ⟨?_, ?_, rfl, rfl, ?_, ?_⟩
  · intro h; simp [get_dashboard_data, daysElapsed, h]
  · intro s h; simp [get_dashboard_data, daysElapsed, h]
  · intro h
    constructor
    · have hd : 0 ≤ daysElapsed user now := daysElapsed_nonneg user now h
      have hdq : (0:ℚ) ≤ (daysElapsed user now : ℚ) := by exact_mod_cast hd
      exact le_min (by norm_num)
        (mul_nonneg (div_nonneg hdq (by norm_num)) (by norm_num))
    · exact min_le_left _ _
  · intro now' hle
    exact progress_formula_mono (daysElapsed_mono user hle)

/-- Witness for `c3_dashboard`: five days into a 90-day challenge the
progress is between 0 and 100. -/
theorem c3_witness :
    0 ≤ (get_dashboard_data
          { id := "u1", email := "a@b", name := "A", picture := "p",
            session_token := "t", expires_at := 10 * 86400, created_at := 0,
            challenge_start_date := some 0 }
          (5 * 86400) { users := [], projects := [] }).challenge_progress := by
  refine ((c3_dashboard
      { id := "u1", email := "a@b", name := "A", picture := "p",
        session_token := "t", expires_at := 10 * 86400, created_at := 0,
        challenge_start_date := some 0 }
      (5 * 86400) { users := [], projects := [] }).2.2.2.2.1 ?_).1
  intro s hs
  simp only [Option.mem_def, Option.some.injEq] at hs
  omega

/-- Any list of projects splits by status into the "completed" ones, the
"in-progress" ones, and everything else. -/
theorem length_filter_status_split (l : List Project) :
    l.length = (l.filter (fun p => p.status == "completed")).length
      + (l.filter (fun p => p.status == "in-progress")).length
      + (l.filter (fun p =>
            !(p.status == "completed") && !(p.status == "in-progress"))).length := by
  induction l with
  | nil => rfl
  | cons p t ih =>
    by_cases h1 : p.status = "completed"
    · simp [List.filter_cons, h1]
      omega
    · by_cases h2 : p.status = "in-progress"
      · simp [List.filter_cons, h1, h2]
        omega
      · simp [List.filter_cons, h1, h2]
        omega

/-- Claim C6: for each month m, the dashboard's per-month stats count
`completed` and `in_progress` exactly by status string over that month's
projects, `total` counts them all, and `planning` is the subtraction
`total - completed - in_progress`, which equals the number of that
month's projects carrying any *other* status value — so e.g. a "paused"
project lands in the planning bucket. -/
theorem c6_month_stats (user : User) (now : Int) (db : DB)
    (ps : List Project) (m : Int) :
    ((get_dashboard_data user now db).month_1 =
        monthStat (get_user_projects user db) 1
     ∧ (get_dashboard_data user now db).month_2 =
        monthStat (get_user_projects user db) 2
     ∧ (get_dashboard_data user now db).month_3 =
        monthStat (get_user_projects user db) 3)
  ∧ (monthStat ps m).total = (ps.filter (fun p => p.month == m)).length
  ∧ (monthStat ps m).completed =
      ((ps.filter (fun p => p.month == m)).filter
        (fun p => p.status == "completed")).length
  ∧ (monthStat ps m).in_progress =
      ((ps.filter (fun p => p.month == m)).filter
        (fun p => p.status == "in-progress")).length
  ∧ (monthStat ps m).planning =
      ((monthStat ps m).total : Int) - ((monthStat ps m).completed : Int)
        - ((monthStat ps m).in_progress : Int)
  ∧ (monthStat ps m).planning =
      (((ps.filter (fun p => p.month == m)).filter
        (fun p => !(p.status == "completed") && !(p.status == "in-progress"))).length : Int) := by
  refine ⟨⟨rfl, rfl, rfl⟩, rfl, rfl, rfl, rfl, ?_⟩
  show ((ps.filter (fun p => p.month == m)).length : Int)
      - ((ps.filter (fun p => p.month == m)).filter
          (fun p => p.status == "completed")).length
      - ((ps.filter (fun p => p.month == m)).filter
          (fun p => p.status == "in-progress")).length = _
  have := length_filter_status_split (ps.filter (fun p => p.month == m))
  omega

/-- Concrete user for the round-trip cap counterexample. -/
def rtUser : User :=
  { id := "u9", email := "e", name := "N", picture := "P",
    session_token := "t", expires_at := 10, created_at := 0,
    challenge_start_date := none }

/-- A pre-existing project of `rtUser` (month 1). -/
def rtOld : Project :=
  { id := "p0", user_id := "u9", title := "T", description := "D",
    tech_stack := [], deployed_link := none, github_link := none,
    status := "planning", month := 1, created_at := 0, updated_at := 0 }

/-- The create input of the round-trip (month 2, distinct tech stack). -/
def rtInput : ProjectCreate :=
  { title := "X", description := "Y", tech_stack := ["lean"],
    deployed_link := none, github_link := none, month := 2 }

/-- A database where `rtUser` already owns 1000 projects. -/
def rtDB : DB := { users := [rtUser], projects := List.replicate 1000 rtOld }

/-- Claim C9 (as frozen): the round-trip fails on the code when the user
already owns 1000 projects, because `GET /projects` caps its cursor at
1000 documents (`to_list(1000)`) and the newly inserted project is the
1001st: the fetched list then contains no entry with the input's month. -/
theorem c9_counterexample :
    ¬ ∃ q ∈ get_user_projects rtUser (create_project rtUser rtInput "nid" 5 rtDB).2,
        q.tech_stack = rtInput.tech_stack ∧ q.month = rtInput.month
        ∧ q.status = "planning" ∧ q.user_id = rtUser.id := by
  have hlist : get_user_projects rtUser
      (create_project rtUser rtInput "nid" 5 rtDB).2 = List.replicate 1000 rtOld := by
    show ((List.replicate 1000 rtOld ++
        [({ id := "nid", user_id := rtUser.id, title := rtInput.title,
            description := rtInput.description, tech_stack := rtInput.tech_stack,
            deployed_link := rtInput.deployed_link,
            github_link := rtInput.github_link, status := "planning",
            month := rtInput.month, created_at := 5, updated_at := 5 } : Project)]).filter
        (fun p => p.user_id == rtUser.id)).take 1000 = List.replicate 1000 rtOld
    rw [List.filter_append, List.filter_replicate_of_pos (by decide)]
    exact List.take_left' (List.length_replicate 1000 rtOld)
  simp only [hlist]
  rintro ⟨q, hq, -, hm, -, -⟩
  have hq0 := List.eq_of_mem_replicate hq
  subst hq0
  exact absurd hm (by decide)

/-- Claim C9 (amended): for every authenticated user owning fewer than
1000 projects, creating a project and then fetching via `listOwn` returns
an entry whose `tech_stack` and `month` equal the input's values, whose
status is the default `"planning"`, and whose `user_id` is the creating
user's id. -/
theorem c9_roundtrip (user : User) (input : ProjectCreate) (nid : String)
    (now : Int) (db : DB)
    (hcap : (db.projects.filter (fun p => p.user_id == user.id)).length < 1000) :
    ∃ q ∈ get_user_projects user (create_project user input nid now db).2,
      q.tech_stack = input.tech_stack ∧ q.month = input.month
      ∧ q.status = "planning" ∧ q.user_id = user.id := by
  refine ⟨(create_project user input nid now db).1, ?_, rfl, rfl, rfl, rfl⟩
  show (create_project user input nid now db).1 ∈
    ((db.projects ++ [(create_project user input nid now db).1]).filter
      (fun p => p.user_id == user.id)).take 1000
  rw [List.filter_append]
  have hone : [(create_project user input nid now db).1].filter
      (fun p => p.user_id == user.id) =
      [(create_project user input nid now db).1] := by
    simp [create_project]
  rw [hone, List.take_of_length_le (by simp; omega)]
  exact List.mem_append_right _ (List.mem_singleton_self _)

/-- Witness for `c9_roundtrip`: the round-trip on an empty database. -/
theorem c9_witness :
    ∃ q ∈ get_user_projects rtUser
        (create_project rtUser rtInput "nid" 5
          { users := [rtUser], projects := [] }).2,
      q.tech_stack = rtInput.tech_stack ∧ q.month = rtInput.month
      ∧ q.status = "planning" ∧ q.user_id = rtUser.id :=
  c9_roundtrip rtUser rtInput "nid" 5 { users := [rtUser], projects := [] }
    (by simp)

/-- Membership in the explore join: exactly the project/owner pairs whose
ids line up, flattened. -/
theorem mem_exploreJoin (db : DB) (e : ExploreEntry) :
    e ∈ exploreJoin db ↔
      ∃ p ∈ db.projects, ∃ u ∈ db.users, u.id = p.user_id
        ∧ e = flattenEntry p u := by
  unfold exploreJoin
  simp only [List.mem_flatMap, List.mem_map, List.mem_filter, beq_iff_eq]
  constructor
  · rintro ⟨p, hp, u, ⟨hu, hid⟩, rfl⟩
    exact ⟨p, hp, u, hu, hid, rfl⟩
  · rintro ⟨p, hp, u, hu, hid, rfl⟩
    exact ⟨p, hp, u, ⟨hu, hid⟩, rfl⟩

/-- Relation `newerFirst` is transitive. -/
theorem newerFirst_trans (a b c : ExploreEntry) :
    newerFirst a b → newerFirst b c → newerFirst a c := by
  simp only [newerFirst, decide_eq_true_eq]
  omega

/-- Relation `newerFirst` is total. -/
theorem newerFirst_total (a b : ExploreEntry) :
    newerFirst a b || newerFirst b a := by
  simp only [newerFirst, Bool.or_eq_true, decide_eq_true_eq]
  omega

/-- Claim C5 (amended): the public explore operation returns only
flattened project/owner pairs whose owner record exists, sorted by
`created_at` descending; and as long as the join carries at most 1000
rows (the `to_list(1000)` cursor cap), it returns exactly the projects
whose `user_id` matches the id of some existing user record, each
flattened with the owner's name and picture. -/
theorem c5_explore (db : DB) :
    ((exploreJoin db).length ≤ 1000 →
       ∀ e, e ∈ get_all_projects db ↔
         ∃ p ∈ db.projects, ∃ u ∈ db.users, u.id = p.user_id
           ∧ e = flattenEntry p u)
  ∧ (∀ e ∈ get_all_projects db,
       ∃ p ∈ db.projects, ∃ u ∈ db.users, u.id = p.user_id
         ∧ e = flattenEntry p u)
  ∧ (get_all_projects db).Pairwise (fun a b => b.created_at ≤ a.created_at) := by
  refine ⟨?_, ?_, ?_⟩
  · intro hlen e
    unfold get_all_projects
    rw [List.take_of_length_le (by rw [List.length_mergeSort]; exact hlen)]
    rw [List.mem_mergeSort]
    exact mem_exploreJoin db e
  · intro e he
    have h1 : e ∈ (exploreJoin db).mergeSort newerFirst :=
      List.mem_of_mem_take he
    rw [List.mem_mergeSort] at h1
    exact (mem_exploreJoin db e).mp h1
  · have hs : ((exploreJoin db).mergeSort newerFirst).Pairwise
        (fun a b => newerFirst a b = true) :=
      List.sorted_mergeSort (fun a b c => newerFirst_trans a b c)
        newerFirst_total (exploreJoin db)
    have ht : (get_all_projects db).Pairwise (fun a b => newerFirst a b = true) :=
      List.Pairwise.sublist (List.take_sublist _ _) hs
    exact ht.imp (fun h => of_decide_eq_true h)

/-- Witness for `c5_explore`: on the empty database the feed is exactly
empty (membership matches the join characterization). -/
theorem c5_witness :
    flattenEntry rtOld rtUser ∈ get_all_projects { users := [], projects := [] }
    ↔ ∃ p ∈ ({ users := [], projects := [] } : DB).projects,
        ∃ u ∈ ({ users := [], projects := [] } : DB).users,
          u.id = p.user_id ∧ flattenEntry rtOld rtUser = flattenEntry p u :=
  (c5_explore { users := [], projects := [] }).1 (by decide)
    (flattenEntry rtOld rtUser)

/-- Owner for the explore cap counterexample. -/
def exUser : User :=
  { id := "u", email := "e", name := "N", picture := "P",
    session_token := "t", expires_at := 10, created_at := 0,
    challenge_start_date := none }

/-- The newer project (1000 identical copies stand before the old one). -/
def exNew : Project :=
  { id := "new", user_id := "u", title := "T", description := "D",
    tech_stack := [], deployed_link := none, github_link := none,
    status := "planning", month := 1, created_at := 1, updated_at := 1 }

/-- The oldest project, pushed beyond the 1000-document cursor cap. -/
def exOld : Project :=
  { id := "old", user_id := "u", title := "T", description := "D",
    tech_stack := [], deployed_link := none, github_link := none,
    status := "planning", month := 1, created_at := 0, updated_at := 0 }

/-- A database whose explore join has 1001 rows. -/
def exDB : DB :=
  { users := [exUser], projects := List.replicate 1000 exNew ++ [exOld] }

/-- Mapping `flatMap` over a replicated element whose image is a singleton. -/
theorem flatMap_replicate_singleton {α β : Type} (n : Nat) (x : α)
    (f : α → List β) (e : β) (h : f x = [e]) :
    (List.replicate n x).flatMap f = List.replicate n e := by
  induction n with
  | zero => rfl
  | succ k ih => simp [List.replicate_succ, h, ih]

/-- The explore feed of `exDB` consists of the 1000 newer entries only. -/
theorem get_all_projects_exDB :
    get_all_projects exDB = List.replicate 1000 (flattenEntry exNew exUser) := by
  have hjoin : exploreJoin exDB =
      List.replicate 1000 (flattenEntry exNew exUser) ++
        [flattenEntry exOld exUser] := by
    show (List.replicate 1000 exNew ++ [exOld]).flatMap
        (fun p => (exDB.users.filter (fun u => u.id == p.user_id)).map
          (flattenEntry p)) = _
    rw [List.flatMap_append,
      flatMap_replicate_singleton 1000 exNew _ (flattenEntry exNew exUser)
        (by decide)]
    congr 1
  have hsorted : (List.replicate 1000 (flattenEntry exNew exUser) ++
      [flattenEntry exOld exUser]).Pairwise
        (fun a b => newerFirst a b = true) := by
    rw [List.pairwise_append]
    refine ⟨List.pairwise_replicate.mpr (Or.inr (by decide)),
      List.pairwise_singleton _ _, ?_⟩
    intro a ha b hb
    have ha' := List.eq_of_mem_replicate ha
    have hb' := List.mem_singleton.mp hb
    subst ha'; subst hb'
    decide
  unfold get_all_projects
  rw [hjoin, List.mergeSort_of_sorted hsorted]
  exact List.take_left' (List.length_replicate 1000 _)

/-- Claim C5 (as frozen): the explore feed contains an entry for *every*
project whose owner record exists.  This fails on the code: the cursor is
capped at 1000 documents, so with 1001 owned projects the oldest one is
dropped from the feed even though its owner exists. -/
theorem c5_counterexample :
    ∃ p ∈ exDB.projects, (∃ u ∈ exDB.users, u.id = p.user_id) ∧
      ∀ e ∈ get_all_projects exDB, e.id ≠ p.id := by
  refine ⟨exOld, ?_, ⟨exUser, List.mem_singleton_self _, by decide⟩, ?_⟩
  · show exOld ∈ List.replicate 1000 exNew ++ [exOld]
    exact List.mem_append_right _ (List.mem_singleton_self _)
  · intro e he
    rw [get_all_projects_exDB] at he
    have := List.eq_of_mem_replicate he
    subst this
    decide

end NinetyDay
